import Mathlib

/-!
Verification of the StitchFin (VocalBridge Ops) resilient vendor-call
pipeline: the billing calculator, the timeout/retry/backoff/fallback
caller with its audit trail, the idempotency store, the message
orchestrator, and the dashboard chat client.  Definitions are shallow
embeddings of the corresponding source artifacts; monetary amounts are
exact rationals (the source computes in Python Decimal, never binary
floating point).
-/

namespace StitchFin

/-- Closed set of providers, per the factory map in the source
(get_vendor_adapter maps exactly vendorA and vendorB). -/
inductive Provider where
  | vendorA
  | vendorB
deriving DecidableEq

/-- PRICING table from the source, input side: dollars per 1000 input
tokens, held as an exact decimal (vendorA 0.002, vendorB 0.003). -/
def pricePerKIn : Provider → ℚ
  | .vendorA => 2 / 1000
  | .vendorB => 3 / 1000

/-- PRICING table from the source, output side: dollars per 1000 output
tokens (vendorA 0.002, vendorB 0.003). -/
def pricePerKOut : Provider → ℚ
  | .vendorA => 2 / 1000
  | .vendorB => 3 / 1000

/-- Round a rational to the nearest integer with ties going to the even
neighbour: this is ROUND_HALF_EVEN, the default context rounding that the
Python Decimal.quantize call in calculate_cost uses. -/
def roundHalfEven (q : ℚ) : ℤ :=
  if q - ⌊q⌋ < 1 / 2 then ⌊q⌋
  else if 1 / 2 < q - ⌊q⌋ then ⌊q⌋ + 1
  else if Even ⌊q⌋ then ⌊q⌋ else ⌊q⌋ + 1

/-- Round a rational to the nearest integer with ties going up: the
ROUND_HALF_UP rule named by the spec (for the nonnegative costs at hand
this is floor of q + 1/2). -/
def roundHalfUp (q : ℚ) : ℤ := ⌊q + 1 / 2⌋

/-- Quantization to six fractional decimal digits with the Decimal
default rounding, as performed by quantize on the 0.000001 template. -/
def quantize6 (q : ℚ) : ℚ := (roundHalfEven (q * 1000000) : ℚ) / 1000000

/-- calculate_cost from the source billing service: per-K prices applied
to exact token counts, then quantized to six fractional digits. -/
def calculate_cost (provider : Provider) (tokens_in tokens_out : ℕ) : ℚ :=
  let input_cost := ((tokens_in : ℚ) / 1000) * pricePerKIn provider
  let output_cost := ((tokens_out : ℚ) / 1000) * pricePerKOut provider
  quantize6 (input_cost + output_cost)

/-- Rounding to six fractional digits with half-up ties, exactly as the
spec words the round6 operation; used to compare the code against the
spec formula. -/
def spec_round6 (q : ℚ) : ℚ := (roundHalfUp (q * 1000000) : ℚ) / 1000000

/-- The cost formula as the spec states it: round6 applied half-up to
the exact decimal value of the per-K pricing formula. -/
def spec_cost (provider : Provider) (tokens_in tokens_out : ℕ) : ℚ :=
  spec_round6 (((tokens_in : ℚ) / 1000) * pricePerKIn provider
    + ((tokens_out : ℚ) / 1000) * pricePerKOut provider)

/-- Error kinds of the vendor taxonomy: every adapter maps its native
failures into exactly these three retryable kinds. -/
inductive VendorError where
  | timeout
  | upstream (code : ℕ)
  | rateLimited (retryAfterMs : ℕ)
deriving DecidableEq

/-- Outcome of one attempted vendor call.  The nondeterminism of the
network is an input of the model: a script assigns an outcome to each
attempt index. -/
inductive VendorOutcome where
  | ok (text : String) (tokensIn tokensOut latencyMs : ℕ)
  | fail (e : VendorError)
deriving DecidableEq

/-- NormalizedResult: the uniform shape every adapter normalizes its raw
response into. -/
structure NormalizedResponse where
  text : String
  tokens_in : ℕ
  tokens_out : ℕ
  latency_ms : ℕ
deriving DecidableEq

/-- Retry policy of the ResilientCaller: maximum attempts per adapter,
base backoff and backoff cap, in milliseconds. -/
structure RetryPolicy where
  maxAttempts : ℕ
  baseMs : ℕ
  capMs : ℕ
deriving DecidableEq

/-- The documented default policy: three attempts, one second base
backoff, ten second cap. -/
def defaultPolicy : RetryPolicy :=
  { maxAttempts := 3, baseMs := 1000, capMs := 10000 }

/-- Modelled from the spec: the wait inserted before attempt n (n at
least 2), given the failure of attempt n-1.  The retry loop body in the
architecture document is elided, but its schedule is stated there: the
exponential backoff min(base * 2 ^ (n-2), cap), except that a rate
limited failure waits exactly the provider supplied retryAfter instead
of the computed backoff. -/
def waitBeforeAttempt (pol : RetryPolicy) (e : VendorError) (n : ℕ) : ℕ :=
  match e with
  | .rateLimited retryAfterMs => retryAfterMs
  | _ => min (pol.baseMs * 2 ^ (n - 2)) pol.capMs

/-- One attempt of the retry loop: its 1-based index within the current
adapter sequence, the delay waited before it, and its outcome. -/
structure AttemptStep where
  num : ℕ
  delayBefore : ℕ
  outcome : VendorOutcome
deriving DecidableEq

/-- Modelled from the spec: the attempt sequence of the retry loop for
one adapter.  Arguments after the script: remaining attempts allowed,
the index of the current attempt, and the delay waited before it.  A
success stops the loop; a failure retries after the policy delay until
the attempt budget is spent. -/
def retrySteps (pol : RetryPolicy) (script : ℕ → VendorOutcome) :
    ℕ → ℕ → ℕ → List AttemptStep
  | 0, _, _ => []
  | k + 1, n, d =>
    { num := n, delayBefore := d, outcome := script n } ::
      (match script n with
       | .ok _ _ _ _ => []
       | .fail e => retrySteps pol script k (n + 1) (waitBeforeAttempt pol e (n + 1)))

/-- Status vocabulary of ProviderCallRecord rows. -/
inductive CallStatus where
  | attempted
  | retrying
  | fallback
  | success
  | error
deriving DecidableEq

/-- One row of the append-only provider_calls audit log (the fields the
claims are about: provider, 1-based attempt number, status). -/
structure ProviderCallRecord where
  provider : Provider
  attempt : ℕ
  status : CallStatus
deriving DecidableEq

/-- The audit record written for one attempt: a success logs success, a
failure logs retrying when another attempt follows and error on the
terminal attempt.  The offset shifts record numbering (0 for the
primary; 1 for the fallback, whose record numbering starts with the
fallback marker at attempt 1, as in the audit example of the
architecture document). -/
def stepRecord (prov : Provider) (offset maxA : ℕ) (s : AttemptStep) :
    ProviderCallRecord :=
  { provider := prov, attempt := s.num + offset,
    status :=
      match s.outcome with
      | .ok _ _ _ _ => .success
      | .fail _ => if s.num = maxA then .error else .retrying }

deriving instance DecidableEq for Except

/-- Result of a retry sequence: decided by its final attempt. -/
def retryOutcome (steps : List AttemptStep) :
    Except VendorError NormalizedResponse :=
  match steps.getLast? with
  | some s =>
    match s.outcome with
    | .ok t i o l =>
      .ok { text := t, tokens_in := i, tokens_out := o, latency_ms := l }
    | .fail e => .error e
  | none => .error .timeout

/-- Terminal failure carrying the primary error and, when a fallback was
configured and also exhausted, the fallback error. -/
structure AllVendorsFailed where
  primaryError : VendorError
  fallbackError : Option VendorError
deriving DecidableEq

/-- Modelled from the spec: call_with_fallback of the ResilientCaller
(the executable backend module is not part of the repository snapshot;
this follows the snippet and audit example in the architecture
document).  The primary adapter is retried up to the attempt budget; on
exhaustion, a configured fallback gets a fallback marker record and its
own retry sequence; with no fallback the call fails fast with only the
primary error. -/
def callWithFallback (pol : RetryPolicy) (primary : Provider)
    (fb : Option Provider) (scriptP scriptF : ℕ → VendorOutcome) :
    Except AllVendorsFailed (NormalizedResponse × Provider) ×
      List ProviderCallRecord :=
  let stepsP := retrySteps pol scriptP pol.maxAttempts 1 0
  let recsP := stepsP.map (stepRecord primary 0 pol.maxAttempts)
  match retryOutcome stepsP with
  | .ok r => (.ok (r, primary), recsP)
  | .error e1 =>
    match fb with
    | none => (.error { primaryError := e1, fallbackError := none }, recsP)
    | some fp =>
      let marker : ProviderCallRecord :=
        { provider := fp, attempt := 1, status := .fallback }
      let stepsF := retrySteps pol scriptF pol.maxAttempts 1 0
      let recsF := stepsF.map (stepRecord fp 1 pol.maxAttempts)
      match retryOutcome stepsF with
      | .ok r => (.ok (r, fp), recsP ++ marker :: recsF)
      | .error e2 =>
        (.error { primaryError := e1, fallbackError := some e2 },
         recsP ++ marker :: recsF)

/-- One IdempotencyRecord: tenant scope, key, the cached serialized
response payload, and the absolute expiry instant. -/
structure IdemRecord where
  tenant : String
  key : String
  response : String
  expiresAt : ℕ
deriving DecidableEq

/-- One persisted Message row (the fields the claims are about). -/
structure MessageRow where
  role : String
  content : String
  provider_used : Option Provider
deriving DecidableEq

/-- One UsageEvent row of the append-only billing ledger. -/
structure UsageEvent where
  tenant : String
  provider : Provider
  tokens_in : ℕ
  tokens_out : ℕ
  cost : ℚ
deriving DecidableEq

/-- The durable state the orchestrator writes: message rows, usage
events, idempotency records and the provider call audit log. -/
structure GatewayState where
  messages : List MessageRow
  usage_events : List UsageEvent
  idem : List IdemRecord
  audit : List ProviderCallRecord
deriving DecidableEq

/-- The documented fixed idempotency TTL: 24 hours, in milliseconds. -/
def ttlMs : ℕ := 86400000

/-- Modelled from the spec: IdempotencyStore lookup over the record
list, scoped per tenant, treating expired records as absent (expiry is
authoritative). -/
def idemFind (tenant key : String) (now : ℕ) :
    List IdemRecord → Option String
  | [] => none
  | r :: rest =>
    if r.tenant = tenant ∧ r.key = key ∧ now < r.expiresAt then some r.response
    else idemFind tenant key now rest

/-- Lookup entry point over the gateway state. -/
def idemLookup (st : GatewayState) (tenant key : String) (now : ℕ) :
    Option String :=
  idemFind tenant key now st.idem

/-- Modelled from the spec: IdempotencyStore write with the fixed TTL,
performed on first successful completion of a logical request. -/
def idemStore (st : GatewayState) (tenant key response : String) (now : ℕ) :
    GatewayState :=
  { st with idem :=
      { tenant := tenant, key := key, response := response,
        expiresAt := now + ttlMs } :: st.idem }

/-- Role strings of message rows. -/
def userRole : String := "user"

/-- Role string of the assistant message row. -/
def assistantRole : String := "assistant"

/-- The assistant rows of a message list. -/
def assistantRows (ms : List MessageRow) : List MessageRow :=
  ms.filter (fun m => m.role == assistantRole)

/-- Provider names as the source factory spells them. -/
def providerName : Provider → String
  | .vendorA => "vendorA"
  | .vendorB => "vendorB"

/-- Serialization of the response payload returned to the caller and
cached by the idempotency store; byte identity of responses is equality
of these strings. -/
def renderResponse (r : NormalizedResponse) (prov : Provider) : String :=
  r.text ++ "|" ++ providerName prov

/-- A staged row insert of the persistence transaction. -/
inductive DbWrite where
  | insertMessage (m : MessageRow)
  | insertUsage (u : UsageEvent)
deriving DecidableEq

/-- Apply one staged insert to the durable state. -/
def applyWrite (st : GatewayState) : DbWrite → GatewayState
  | .insertMessage m => { st with messages := st.messages ++ [m] }
  | .insertUsage u => { st with usage_events := st.usage_events ++ [u] }

/-- Fault points inside the persistence transaction: an error may hit
before the assistant message insert, between the message insert and the
usage event insert, or after both inserts but before the commit. -/
inductive PersistFault where
  | beforeMessage
  | betweenInserts
  | beforeCommit
deriving DecidableEq

/-- Modelled from the spec: the all-or-nothing commit boundary around
the Persisting and CostCalculated steps.  Staged writes become durable
only at commit; a fault at any point inside the transaction rolls the
whole transaction back, no matter how many inserts were already
staged. -/
def commitTxn (st : GatewayState) (writes : List DbWrite)
    (fault : Option PersistFault) : GatewayState :=
  match fault with
  | some _ => st
  | none => writes.foldl applyWrite st

/-- The error surfaced to the caller of a logical send. -/
inductive SendError where
  | allVendorsFailed (e : AllVendorsFailed)
  | persistFailed
deriving DecidableEq

/-- Per-call inputs of one logical send: the message content, the wall
clock instant, the injected persistence fault (if any), and the vendor
outcome scripts for the primary and the fallback adapter. -/
structure SendInput where
  content : String
  now : ℕ
  fault : Option PersistFault
  scriptP : ℕ → VendorOutcome
  scriptF : ℕ → VendorOutcome

/-- Modelled from the spec: the cache-miss path of the orchestrator.
User message insert, resilient vendor call with its audit append, then
the atomic persistence of the assistant message and the usage event,
and finally the idempotency cache write when a key was supplied. -/
def processMessage (pol : RetryPolicy) (tenant : String) (primary : Provider)
    (fb : Option Provider) (key : Option String) (inp : SendInput)
    (st : GatewayState) : Except SendError String × GatewayState :=
  let userMsg : MessageRow :=
    { role := userRole, content := inp.content, provider_used := none }
  let call := callWithFallback pol primary fb inp.scriptP inp.scriptF
  let st2 : GatewayState :=
    { st with messages := st.messages ++ [userMsg],
              audit := st.audit ++ call.2 }
  match call.1 with
  | .error e => (.error (.allVendorsFailed e), st2)
  | .ok (r, prov) =>
    let ev : UsageEvent :=
      { tenant := tenant, provider := prov, tokens_in := r.tokens_in,
        tokens_out := r.tokens_out,
        cost := calculate_cost prov r.tokens_in r.tokens_out }
    let asst : MessageRow :=
      { role := assistantRole, content := r.text, provider_used := some prov }
    let st3 := commitTxn st2 [DbWrite.insertMessage asst, DbWrite.insertUsage ev] inp.fault
    match inp.fault with
    | some _ => (.error .persistFailed, st3)
    | none =>
      let resp := renderResponse r prov
      match key with
      | some k => (.ok resp, idemStore st3 tenant k resp inp.now)
      | none => (.ok resp, st3)

/-- Modelled from the spec: send_message of the orchestrator.  With a
supplied idempotency key whose record is cached and unexpired, the
cached response is returned immediately with no processing; otherwise
the logical send is processed and, on success, cached. -/
def sendMessage (pol : RetryPolicy) (tenant : String) (primary : Provider)
    (fb : Option Provider) (key : Option String) (inp : SendInput)
    (st : GatewayState) : Except SendError String × GatewayState :=
  match key with
  | some k =>
    match idemLookup st tenant k inp.now with
    | some cached => (.ok cached, st)
    | none => processMessage pol tenant primary fb (some k) inp st
  | none => processMessage pol tenant primary fb none inp st

/-- A sequence of logical sends sharing one tenant, agent configuration
and idempotency key, run left to right. -/
def runCalls (pol : RetryPolicy) (tenant : String) (primary : Provider)
    (fb : Option Provider) (key : Option String) :
    List SendInput → GatewayState →
      GatewayState × List (Except SendError String)
  | [], st => (st, [])
  | inp :: rest, st =>
    let out := sendMessage pol tenant primary fb key inp st
    let tail := runCalls pol tenant primary fb key rest out.2
    (tail.1, out.1 :: tail.2)

/-- One row of the idempotency_keys table exactly as the SQL schema in
the architecture document declares it: the key column alone is the
PRIMARY KEY; tenant_id is an ordinary column. -/
structure IdemTableRow where
  key : String
  tenant_id : String
  response : String
  expiresAt : ℕ
deriving DecidableEq

/-- The database error text for a primary key conflict. -/
def pkViolationMsg : String := "duplicate key value violates primary key constraint of idempotency_keys"

/-- INSERT INTO idempotency_keys under the declared schema: the primary
key constraint on the key column alone rejects any second row carrying
the same key string, whatever its tenant_id. -/
def dbInsertIdempotencyKey (tbl : List IdemTableRow) (row : IdemTableRow) :
    Except String (List IdemTableRow) :=
  if tbl.any (fun r => r.key == row.key) then .error pkViolationMsg
  else .ok (tbl ++ [row])

/-- SELECT of the cached response by tenant and key, as the lookup
helper get_cached_response receives both the key and the tenant id. -/
def dbLookupIdempotencyKey (tbl : List IdemTableRow) (tenant key : String) :
    Option String :=
  (tbl.find? (fun r => r.key == key && r.tenant_id == tenant)).map
    IdemTableRow.response

/-- Idempotency key prefix generated by the dashboard chat. -/
def msgKeyMarker : String := "msg-"

/-- The idempotency key the dashboard chat supplies on every send:
msg- followed by the current timestamp in milliseconds (Date.now), from
the useChat send mutation. -/
def dashboardIdempotencyKey (nowMs : ℕ) : String :=
  msgKeyMarker ++ toString nowMs

/-- The request shape built by sessionsApi.sendMessage. -/
structure HttpRequest where
  sessionId : String
  content : String
  idempotencyHeader : Option String
deriving DecidableEq

/-- sessionsApi.sendMessage from the dashboard api module: the
Idempotency-Key header is attached exactly when a truthy (present and
nonempty) key argument is supplied. -/
def sessionsSendMessage (sessionId content : String)
    (idempotencyKey : Option String) : HttpRequest :=
  { sessionId := sessionId, content := content,
    idempotencyHeader :=
      match idempotencyKey with
      | some k => if k.isEmpty then none else some k
      | none => none }

/-- One message of the dashboard chat list state. -/
structure ChatMessage where
  id : String
  role : String
  content : String
deriving DecidableEq

/-- Executable embedding of the JavaScript String.startsWith test used
by the chat mutation handlers. -/
def strStartsWith (s p : String) : Bool := p.data.isPrefixOf s.data

/-- Id prefix of the optimistic temporary user message. -/
def tempIdMarker : String := "temp-"

/-- Id prefix of the confirmed user message added on success. -/
def userIdMarker : String := "user-"

/-- onMutate of the dashboard send mutation: optimistically append the
user message, its id being temp- followed by the timestamp. -/
def chatOnMutate (msgs : List ChatMessage) (content : String) (nowMs : ℕ) :
    List ChatMessage :=
  msgs ++ [{ id := tempIdMarker ++ toString nowMs, role := userRole,
             content := content }]

/-- onError of the dashboard send mutation: remove every message whose
id starts with temp-. -/
def chatOnError (msgs : List ChatMessage) : List ChatMessage :=
  msgs.filter (fun m => !(strStartsWith m.id tempIdMarker))

/-- onSuccess of the dashboard send mutation: drop the temp messages,
then append the confirmed user message and the assistant message. -/
def chatOnSuccess (msgs : List ChatMessage) (content : String) (nowMs : ℕ)
    (assistantMsg : ChatMessage) : List ChatMessage :=
  msgs.filter (fun m => !(strStartsWith m.id tempIdMarker))
    ++ [{ id := userIdMarker ++ toString nowMs, role := userRole,
          content := content }, assistantMsg]

/-- Sample output text of the primary vendor in scenarios. -/
def sampleTextA : String := "primary answer"

/-- Sample output text of the fallback vendor in scenarios. -/
def sampleTextB : String := "fallback answer"

/-- Sample inbound message content in scenarios. -/
def sampleContent : String := "What is the status of invoice INV-001"

/-- Scenario script: the adapter fails its first two attempts with an
upstream 500 and succeeds on the third. -/
def scriptFailTwice : ℕ → VendorOutcome := fun n =>
  if n ≤ 2 then .fail (.upstream 500) else .ok sampleTextA 500 300 120

/-- Scenario script: the adapter succeeds immediately. -/
def scriptAlwaysOkB : ℕ → VendorOutcome := fun _ => .ok sampleTextB 100 150 340

/-- Scenario script: the adapter fails every attempt with an upstream
500. -/
def scriptAlwaysFail : ℕ → VendorOutcome := fun _ => .fail (.upstream 500)

/-- Scenario script: the adapter fails every attempt rate limited with a
2000 ms retryAfter. -/
def scriptAlwaysRateLimited : ℕ → VendorOutcome := fun _ =>
  .fail (.rateLimited 2000)

/-- The empty durable state. -/
def emptyState : GatewayState :=
  { messages := [], usage_events := [], idem := [], audit := [] }

/-- Sample tenant identifier in scenarios. -/
def tenantOne : String := "tenant-1"

/-- A second, distinct tenant identifier in scenarios. -/
def tenantTwo : String := "tenant-2"

/-- Sample idempotency key string in scenarios. -/
def keyOne : String := "k1"

/-- Scenario input for the C5 scenario: primary induced to fail twice
then succeed, no injected persistence fault. -/
def c5Input : SendInput :=
  { content := sampleContent, now := 0, fault := none,
    scriptP := scriptFailTwice, scriptF := scriptAlwaysOkB }

/-- The C5 scenario of the spec, stated on the model: with primary
vendorA failing twice then succeeding and fallback vendorB configured,
the audit holds exactly two retrying records and one success record for
vendorA and no record for vendorB, and exactly one UsageEvent exists,
attributing the cost to vendorA. -/
def c5Scenario : Prop :=
  (callWithFallback defaultPolicy Provider.vendorA (some Provider.vendorB)
      scriptFailTwice scriptAlwaysOkB).2 =
    [{ provider := Provider.vendorA, attempt := 1, status := CallStatus.retrying },
     { provider := Provider.vendorA, attempt := 2, status := CallStatus.retrying },
     { provider := Provider.vendorA, attempt := 3, status := CallStatus.success }]
  ∧ (sendMessage defaultPolicy tenantOne Provider.vendorA (some Provider.vendorB)
      none c5Input emptyState).2.usage_events =
    [{ tenant := tenantOne, provider := Provider.vendorA, tokens_in := 500,
       tokens_out := 300, cost := 1600 / 1000000 }]

/-- Scenario script: the primary adapter succeeds immediately. -/
def scriptAlwaysOkA : ℕ → VendorOutcome := fun _ => .ok sampleTextA 500 300 120

/-- Scenario input for the dashboard double-send scenario: a send at
millisecond 42 whose primary vendor succeeds immediately. -/
def c9Input : SendInput :=
  { content := sampleContent, now := 42, fault := none,
    scriptP := scriptAlwaysOkA, scriptF := scriptAlwaysOkB }

/-- The response payload of the successful c9 send. -/
def c9Response : String :=
  renderResponse { text := sampleTextA, tokens_in := 500, tokens_out := 300,
                   latency_ms := 120 } Provider.vendorA

/-- The dashboard double-send scenario: two sends in the same
millisecond carry the same generated key, and running both leaves
exactly one usage event and returns the identical response twice. -/
def c9Scenario : Prop :=
  (runCalls defaultPolicy tenantOne Provider.vendorA none
      (some (dashboardIdempotencyKey 42)) [c9Input, c9Input]
      emptyState).1.usage_events.length = 1
  ∧ (runCalls defaultPolicy tenantOne Provider.vendorA none
      (some (dashboardIdempotencyKey 42)) [c9Input, c9Input]
      emptyState).2 = [Except.ok c9Response, Except.ok c9Response]

/-- The first row stored in the idempotency_keys table in the tenant
scoping scenario: tenant one stores under the key string k1. -/
def idemRow1 : IdemTableRow :=
  { key := keyOne, tenant_id := tenantOne, response := sampleTextA,
    expiresAt := ttlMs }

/-- The second row offered to the idempotency_keys table in the tenant
scoping scenario: a different tenant stores under the same key string. -/
def idemRow2 : IdemTableRow :=
  { key := keyOne, tenant_id := tenantTwo, response := sampleTextB,
    expiresAt := ttlMs }

/-- A chat message list without temporary entries, as any list produced
by completed sends is. -/
def sampleChatList : List ChatMessage :=
  [{ id := userIdMarker ++ toString 7, role := userRole,
     content := sampleContent }]

theorem roundHalfEven_intCast (n : ℤ) : roundHalfEven (n : ℚ) = n := by
  simp [roundHalfEven]

theorem roundHalfUp_intCast (n : ℤ) : roundHalfUp (n : ℚ) = n := by
  unfold roundHalfUp
  rw [show ((n : ℚ) + 1 / 2) = 1 / 2 + (n : ℚ) by ring, Int.floor_add_int]
  norm_num

theorem quantize6_eq_spec_round6 (q : ℚ) (n : ℤ) (h : q * 1000000 = n) :
    quantize6 q = spec_round6 q := by
  unfold quantize6 spec_round6
  rw [h, roundHalfEven_intCast, roundHalfUp_intCast]

theorem cost_vendorA_500_300 :
    calculate_cost Provider.vendorA 500 300 = 1600 / 1000000 := by
  show quantize6 _ = _
  have h : (((500 : ℕ) : ℚ) / 1000 * pricePerKIn Provider.vendorA
      + ((300 : ℕ) : ℚ) / 1000 * pricePerKOut Provider.vendorA) * 1000000
      = ((1600 : ℤ) : ℚ) := by
    norm_num [pricePerKIn, pricePerKOut]
  unfold quantize6
  rw [h, roundHalfEven_intCast]
  norm_num

/-- C2: calculate_cost is pure and equals, for every provider and all
token counts, the spec formula (tokensIn/1000)*pricePerKIn +
(tokensOut/1000)*pricePerKOut rounded half-up to six fractional decimal
digits in exact decimal arithmetic; in particular
cost(vendorA, 500, 300) = 0.001600. -/
theorem calculate_cost_matches_spec (p : Provider) (tin tout : ℕ) :
    calculate_cost p tin tout = spec_cost p tin tout ∧
    calculate_cost Provider.vendorA 500 300 = 1600 / 1000000 := by
  refine ⟨?_, cost_vendorA_500_300⟩
  show quantize6 _ = spec_round6 _
  cases p
  · apply quantize6_eq_spec_round6 _ (2 * tin + 2 * tout)
    simp only [pricePerKIn, pricePerKOut]
    push_cast
    ring
  · apply quantize6_eq_spec_round6 _ (3 * tin + 3 * tout)
    simp only [pricePerKIn, pricePerKOut]
    push_cast
    ring

theorem retrySteps_delay_spec (pol : RetryPolicy) (script : ℕ → VendorOutcome) :
    ∀ (k n d : ℕ) (s : AttemptStep), s ∈ retrySteps pol script k n d →
      n ≤ s.num ∧ (s.num = n → s.delayBefore = d) ∧
      (n < s.num → ∃ e, script (s.num - 1) = VendorOutcome.fail e ∧
        s.delayBefore = waitBeforeAttempt pol e s.num) := by
  intro k
  induction k with
  | zero =>
    intro n d s hs
    simp [retrySteps] at hs
  | succ k ih =>
    intro n d s hs
    rw [retrySteps, List.mem_cons] at hs
    rcases hs with hs | hs
    · subst hs
      refine ⟨Nat.le_refl n, fun _ => rfl, fun hlt => absurd hlt (by simp)⟩
    · cases hsn : script n with
      | ok t i o l =>
        rw [hsn] at hs
        simp at hs
      | fail e =>
        rw [hsn] at hs
        obtain ⟨hge, heqd, hrec⟩ := ih (n + 1) (waitBeforeAttempt pol e (n + 1)) s hs
        refine ⟨by omega, fun hEq => absurd hEq (by omega), fun _ => ?_⟩
        rcases Nat.eq_or_lt_of_le hge with heq | hlt
        · refine ⟨e, ?_, ?_⟩
          · rw [show s.num - 1 = n by omega]
            exact hsn
          · rw [← heq]
            exact heqd heq.symm
        · exact hrec hlt

theorem retrySteps_map_num (pol : RetryPolicy) (script : ℕ → VendorOutcome) :
    ∀ (k n d : ℕ), (retrySteps pol script k n d).map AttemptStep.num
      = List.range' n (retrySteps pol script k n d).length := by
  intro k
  induction k with
  | zero =>
    intro n d
    simp [retrySteps]
  | succ k ih =>
    intro n d
    cases hsn : script n with
    | ok t i o l => simp [retrySteps, hsn, List.range'_succ]
    | fail e => simp [retrySteps, hsn, List.range'_succ, ih]

theorem map_add_one_range (n L : ℕ) :
    (List.range' n L).map (fun m => m + 1) = List.range' (n + 1) L := by
  induction L generalizing n with
  | zero => rfl
  | succ L ih =>
    rw [List.range'_succ, List.range'_succ]
    simp [ih]

theorem stepRecord_status_ne_fallback (prov : Provider) (off maxA : ℕ)
    (s : AttemptStep) :
    (stepRecord prov off maxA s).status ≠ CallStatus.fallback := by
  unfold stepRecord
  cases s.outcome with
  | ok t i o l => simp
  | fail e =>
    simp only
    split <;> simp

theorem map_attempt_stepRecord_zero (prov : Provider) (maxA : ℕ)
    (steps : List AttemptStep) :
    (steps.map (stepRecord prov 0 maxA)).map ProviderCallRecord.attempt
      = steps.map AttemptStep.num := by
  induction steps with
  | nil => rfl
  | cons s rest ih => simp [stepRecord, ih]

theorem map_attempt_stepRecord_one (prov : Provider) (maxA : ℕ)
    (steps : List AttemptStep) :
    (steps.map (stepRecord prov 1 maxA)).map ProviderCallRecord.attempt
      = steps.map (fun s => s.num + 1) := by
  induction steps with
  | nil => rfl
  | cons s rest ih => simp [stepRecord, ih]

/-- C3: in every retry sequence, the delay waited before attempt n (for
every n greater than 1) equals min(base * 2 ^ (n-2), cap), except when
the failure preceding attempt n was rate limited, in which case the
delay waited equals exactly the provider supplied retryAfter instead of
the computed backoff. -/
theorem backoff_delay_matches_spec (pol : RetryPolicy)
    (script : ℕ → VendorOutcome) (s : AttemptStep)
    (hs : s ∈ retrySteps pol script pol.maxAttempts 1 0) (h1 : 1 < s.num) :
    ∃ e, script (s.num - 1) = VendorOutcome.fail e ∧
      s.delayBefore =
        (match e with
         | VendorError.rateLimited retryAfterMs => retryAfterMs
         | _ => min (pol.baseMs * 2 ^ (s.num - 2)) pol.capMs) := by
  obtain ⟨-, -, h3⟩ := retrySteps_delay_spec pol script pol.maxAttempts 1 0 s hs
  obtain ⟨e, he, hd⟩ := h3 h1
  refine ⟨e, he, ?_⟩
  rw [hd]
  cases e <;> rfl

theorem backoff_delay_matches_spec_witness :
    ({ num := 3, delayBefore := 2000,
       outcome := VendorOutcome.ok sampleTextA 500 300 120 } : AttemptStep)
      ∈ retrySteps defaultPolicy scriptFailTwice defaultPolicy.maxAttempts 1 0
    ∧ 1 < (3 : ℕ)
    ∧ ∃ e, scriptFailTwice (3 - 1) = VendorOutcome.fail e ∧
        (2000 : ℕ) =
          (match e with
           | VendorError.rateLimited retryAfterMs => retryAfterMs
           | _ => min (defaultPolicy.baseMs * 2 ^ (3 - 2)) defaultPolicy.capMs) :=
  ⟨by decide, by decide,
   backoff_delay_matches_spec defaultPolicy scriptFailTwice
     { num := 3, delayBefore := 2000,
       outcome := VendorOutcome.ok sampleTextA 500 300 120 }
     (by decide) (by decide)⟩

/-- C4: whenever the primary exhausts its attempts and a fallback
adapter is configured, the audit for the logical call is the primary
attempt records, then exactly one record with status fallback logged
before the first fallback attempt, then the fallback attempt records,
in that order, with the fallback provider record numbering restarting
at 1 (the marker) and running consecutively from there. -/
theorem fallback_audit_order (pol : RetryPolicy) (primary fp : Provider)
    (scriptP scriptF : ℕ → VendorOutcome) (e1 : VendorError)
    (hexh : retryOutcome (retrySteps pol scriptP pol.maxAttempts 1 0)
      = Except.error e1) :
    ∃ recsP recsF,
      (callWithFallback pol primary (some fp) scriptP scriptF).2
        = recsP ++ ({ provider := fp, attempt := 1,
                      status := CallStatus.fallback } : ProviderCallRecord) :: recsF
      ∧ (∀ r ∈ recsP, r.provider = primary ∧ r.status ≠ CallStatus.fallback)
      ∧ (∀ r ∈ recsF, r.provider = fp ∧ r.status ≠ CallStatus.fallback)
      ∧ recsP.map ProviderCallRecord.attempt = List.range' 1 recsP.length
      ∧ recsF.map ProviderCallRecord.attempt = List.range' 2 recsF.length := by
  refine ⟨(retrySteps pol scriptP pol.maxAttempts 1 0).map
      (stepRecord primary 0 pol.maxAttempts),
    (retrySteps pol scriptF pol.maxAttempts 1 0).map
      (stepRecord fp 1 pol.maxAttempts), ?_, ?_, ?_, ?_, ?_⟩
  · simp only [callWithFallback]
    rw [hexh]
    cases hF : retryOutcome (retrySteps pol scriptF pol.maxAttempts 1 0) <;>
      simp [hF]
  · intro r hr
    obtain ⟨s, -, rfl⟩ := List.mem_map.mp hr
    exact ⟨rfl, stepRecord_status_ne_fallback _ _ _ _⟩
  · intro r hr
    obtain ⟨s, -, rfl⟩ := List.mem_map.mp hr
    exact ⟨rfl, stepRecord_status_ne_fallback _ _ _ _⟩
  · rw [map_attempt_stepRecord_zero, retrySteps_map_num, List.length_map]
  · rw [map_attempt_stepRecord_one,
      show (retrySteps pol scriptF pol.maxAttempts 1 0).map (fun s => s.num + 1)
        = ((retrySteps pol scriptF pol.maxAttempts 1 0).map
            AttemptStep.num).map (fun m => m + 1) by rw [List.map_map]; rfl,
      retrySteps_map_num, map_add_one_range, List.length_map]

theorem fallback_audit_order_witness :
    retryOutcome (retrySteps defaultPolicy scriptAlwaysFail
        defaultPolicy.maxAttempts 1 0)
      = Except.error (VendorError.upstream 500)
    ∧ ∃ recsP recsF,
      (callWithFallback defaultPolicy Provider.vendorA (some Provider.vendorB)
          scriptAlwaysFail scriptAlwaysOkB).2
        = recsP ++ ({ provider := Provider.vendorB, attempt := 1,
                      status := CallStatus.fallback } : ProviderCallRecord) :: recsF
      ∧ (∀ r ∈ recsP, r.provider = Provider.vendorA
          ∧ r.status ≠ CallStatus.fallback)
      ∧ (∀ r ∈ recsF, r.provider = Provider.vendorB
          ∧ r.status ≠ CallStatus.fallback)
      ∧ recsP.map ProviderCallRecord.attempt = List.range' 1 recsP.length
      ∧ recsF.map ProviderCallRecord.attempt = List.range' 2 recsF.length :=
  ⟨by decide,
   fallback_audit_order defaultPolicy Provider.vendorA Provider.vendorB
     scriptAlwaysFail scriptAlwaysOkB (VendorError.upstream 500) (by decide)⟩

theorem c5Scenario_holds : c5Scenario := by
  refine ⟨by decide, ?_⟩
  rw [← cost_vendorA_500_300]
  rfl

/-- C5: if some primary attempt succeeds, the fallback adapter is never
invoked and no record for the fallback provider is written; concretely,
with primary vendorA induced to fail twice then succeed and fallback
vendorB configured, the audit holds exactly two retrying records and
one success record for vendorA, zero records for vendorB, and one
UsageEvent attributes the cost to vendorA. -/
theorem primary_success_skips_fallback (pol : RetryPolicy)
    (primary : Provider) (fb : Option Provider)
    (scriptP scriptF : ℕ → VendorOutcome) (r : NormalizedResponse)
    (hok : retryOutcome (retrySteps pol scriptP pol.maxAttempts 1 0)
      = Except.ok r) :
    ((callWithFallback pol primary fb scriptP scriptF).1
        = Except.ok (r, primary)
      ∧ (callWithFallback pol primary fb scriptP scriptF).2
          = (retrySteps pol scriptP pol.maxAttempts 1 0).map
              (stepRecord primary 0 pol.maxAttempts)
      ∧ ∀ rec ∈ (callWithFallback pol primary fb scriptP scriptF).2,
          rec.provider = primary)
    ∧ c5Scenario := by
  have h2 : (callWithFallback pol primary fb scriptP scriptF).2
      = (retrySteps pol scriptP pol.maxAttempts 1 0).map
          (stepRecord primary 0 pol.maxAttempts) := by
    simp only [callWithFallback]
    rw [hok]
  refine ⟨⟨?_, h2, ?_⟩, c5Scenario_holds⟩
  · simp only [callWithFallback]
    rw [hok]
  · intro rec hrec
    rw [h2] at hrec
    obtain ⟨s, -, rfl⟩ := List.mem_map.mp hrec
    rfl

theorem primary_success_skips_fallback_witness :
    retryOutcome (retrySteps defaultPolicy scriptFailTwice
        defaultPolicy.maxAttempts 1 0)
      = Except.ok { text := sampleTextA, tokens_in := 500, tokens_out := 300,
                    latency_ms := 120 }
    ∧ ((callWithFallback defaultPolicy Provider.vendorA (some Provider.vendorB)
          scriptFailTwice scriptAlwaysOkB).1
        = Except.ok ({ text := sampleTextA, tokens_in := 500,
                       tokens_out := 300, latency_ms := 120 }, Provider.vendorA)
      ∧ (callWithFallback defaultPolicy Provider.vendorA (some Provider.vendorB)
            scriptFailTwice scriptAlwaysOkB).2
          = (retrySteps defaultPolicy scriptFailTwice
              defaultPolicy.maxAttempts 1 0).map
              (stepRecord Provider.vendorA 0 defaultPolicy.maxAttempts)
      ∧ ∀ rec ∈ (callWithFallback defaultPolicy Provider.vendorA
            (some Provider.vendorB) scriptFailTwice scriptAlwaysOkB).2,
          rec.provider = Provider.vendorA)
    ∧ c5Scenario :=
  ⟨by decide,
   primary_success_skips_fallback defaultPolicy Provider.vendorA
     (some Provider.vendorB) scriptFailTwice scriptAlwaysOkB
     { text := sampleTextA, tokens_in := 500, tokens_out := 300,
       latency_ms := 120 } (by decide)⟩

/-- C6: when the primary exhausts its attempts and a configured fallback
also exhausts, the call fails with AllVendorsFailed carrying both
terminal errors; with no fallback configured the call fails fast right
after primary exhaustion, carrying only the primary error, writing only
primary records and never invoking any fallback. -/
theorem all_vendors_failed_errors (pol : RetryPolicy) (primary fp : Provider)
    (scriptP scriptF : ℕ → VendorOutcome) (e1 e2 : VendorError)
    (h1 : retryOutcome (retrySteps pol scriptP pol.maxAttempts 1 0)
      = Except.error e1)
    (h2 : retryOutcome (retrySteps pol scriptF pol.maxAttempts 1 0)
      = Except.error e2) :
    (callWithFallback pol primary (some fp) scriptP scriptF).1
        = Except.error { primaryError := e1, fallbackError := some e2 }
    ∧ callWithFallback pol primary none scriptP scriptF
        = (Except.error { primaryError := e1, fallbackError := none },
           (retrySteps pol scriptP pol.maxAttempts 1 0).map
             (stepRecord primary 0 pol.maxAttempts))
    ∧ ∀ rec ∈ (callWithFallback pol primary none scriptP scriptF).2,
        rec.provider = primary := by
  have hnone : callWithFallback pol primary none scriptP scriptF
      = (Except.error { primaryError := e1, fallbackError := none },
         (retrySteps pol scriptP pol.maxAttempts 1 0).map
           (stepRecord primary 0 pol.maxAttempts)) := by
    simp only [callWithFallback]
    rw [h1]
  refine ⟨?_, hnone, ?_⟩
  · simp only [callWithFallback]
    rw [h1, h2]
  · intro rec hrec
    rw [hnone] at hrec
    obtain ⟨s, -, rfl⟩ := List.mem_map.mp hrec
    rfl

theorem all_vendors_failed_errors_witness :
    retryOutcome (retrySteps defaultPolicy scriptAlwaysFail
        defaultPolicy.maxAttempts 1 0)
      = Except.error (VendorError.upstream 500)
    ∧ retryOutcome (retrySteps defaultPolicy scriptAlwaysRateLimited
        defaultPolicy.maxAttempts 1 0)
      = Except.error (VendorError.rateLimited 2000)
    ∧ (callWithFallback defaultPolicy Provider.vendorA (some Provider.vendorB)
          scriptAlwaysFail scriptAlwaysRateLimited).1
        = Except.error { primaryError := VendorError.upstream 500,
                         fallbackError := some (VendorError.rateLimited 2000) }
    ∧ callWithFallback defaultPolicy Provider.vendorA none
          scriptAlwaysFail scriptAlwaysRateLimited
        = (Except.error { primaryError := VendorError.upstream 500,
                          fallbackError := none },
           (retrySteps defaultPolicy scriptAlwaysFail
              defaultPolicy.maxAttempts 1 0).map
             (stepRecord Provider.vendorA 0 defaultPolicy.maxAttempts))
    ∧ ∀ rec ∈ (callWithFallback defaultPolicy Provider.vendorA none
          scriptAlwaysFail scriptAlwaysRateLimited).2,
        rec.provider = Provider.vendorA := by
  have h := all_vendors_failed_errors defaultPolicy Provider.vendorA
    Provider.vendorB scriptAlwaysFail scriptAlwaysRateLimited
    (VendorError.upstream 500) (VendorError.rateLimited 2000)
    (by decide) (by decide)
  exact ⟨by decide, by decide, h.1, h.2.1, h.2.2⟩

theorem idemFind_eq_none (tenant key : String) (now : ℕ) :
    ∀ l : List IdemRecord, (∀ r ∈ l, ¬(r.tenant = tenant ∧ r.key = key)) →
      idemFind tenant key now l = none := by
  intro l
  induction l with
  | nil => intro _; rfl
  | cons r rest ih =>
    intro h
    rw [idemFind, if_neg]
    · exact ih fun x hx => h x (List.mem_cons_of_mem r hx)
    · intro hc
      exact h r (List.mem_cons_self r rest) ⟨hc.1, hc.2.1⟩

theorem assistantRows_append (ms1 ms2 : List MessageRow) :
    assistantRows (ms1 ++ ms2) = assistantRows ms1 ++ assistantRows ms2 := by
  simp [assistantRows]

theorem assistantRows_user (content : String) :
    assistantRows [{ role := userRole, content := content,
                     provider_used := none }] = [] := by
  simp [assistantRows, userRole, assistantRole]

theorem assistantRows_asst (content : String) (prov : Provider) :
    assistantRows [{ role := assistantRole, content := content,
                     provider_used := some prov }]
      = [{ role := assistantRole, content := content,
           provider_used := some prov }] := by
  simp [assistantRows]

theorem sendMessage_cache_hit (pol : RetryPolicy) (tenant : String)
    (primary : Provider) (fb : Option Provider) (k : String) (inp : SendInput)
    (st : GatewayState) (cached : String)
    (h : idemLookup st tenant k inp.now = some cached) :
    sendMessage pol tenant primary fb (some k) inp st
      = (Except.ok cached, st) := by
  simp only [sendMessage]
  rw [h]

theorem sendMessage_cache_miss (pol : RetryPolicy) (tenant : String)
    (primary : Provider) (fb : Option Provider) (k : String) (inp : SendInput)
    (st : GatewayState) (h : idemLookup st tenant k inp.now = none) :
    sendMessage pol tenant primary fb (some k) inp st
      = processMessage pol tenant primary fb (some k) inp st := by
  simp only [sendMessage]
  rw [h]

theorem processMessage_shape (pol : RetryPolicy) (tenant : String)
    (primary : Provider) (fb : Option Provider) (key : Option String)
    (inp : SendInput) (st : GatewayState) :
    (∃ e st2, processMessage pol tenant primary fb key inp st
        = (Except.error e, st2)
      ∧ st2.idem = st.idem
      ∧ st2.usage_events = st.usage_events
      ∧ assistantRows st2.messages = assistantRows st.messages)
    ∨ (∃ r prov st2, processMessage pol tenant primary fb key inp st
        = (Except.ok (renderResponse r prov), st2)
      ∧ st2.usage_events = st.usage_events ++
          [{ tenant := tenant, provider := prov, tokens_in := r.tokens_in,
             tokens_out := r.tokens_out,
             cost := calculate_cost prov r.tokens_in r.tokens_out }]
      ∧ assistantRows st2.messages = assistantRows st.messages ++
          [{ role := assistantRole, content := r.text,
             provider_used := some prov }]
      ∧ st2.idem = (match key with
          | some k => ({ tenant := tenant, key := k,
                         response := renderResponse r prov,
                         expiresAt := inp.now + ttlMs } : IdemRecord) :: st.idem
          | none => st.idem)) := by
  cases hc : (callWithFallback pol primary fb inp.scriptP inp.scriptF).1 with
  | error e =>
    left
    refine ⟨SendError.allVendorsFailed e,
      { st with
          messages := st.messages ++
            [{ role := userRole, content := inp.content, provider_used := none }],
          audit := st.audit ++
            (callWithFallback pol primary fb inp.scriptP inp.scriptF).2 },
      ?_, rfl, rfl, ?_⟩
    · simp only [processMessage]
      rw [hc]
    · rw [assistantRows_append, assistantRows_user, List.append_nil]
  | ok rp =>
    obtain ⟨r, prov⟩ := rp
    cases hf : inp.fault with
    | some f =>
      left
      refine ⟨SendError.persistFailed,
        { st with
            messages := st.messages ++
              [{ role := userRole, content := inp.content, provider_used := none }],
            audit := st.audit ++
              (callWithFallback pol primary fb inp.scriptP inp.scriptF).2 },
        ?_, rfl, rfl, ?_⟩
      · simp only [processMessage, commitTxn]
        rw [hc, hf]
      · rw [assistantRows_append, assistantRows_user, List.append_nil]
    | none =>
      right
      refine ⟨r, prov,
        (match key with
         | some k => idemStore
            { st with
                messages := (st.messages ++
                    [{ role := userRole, content := inp.content,
                       provider_used := none }]) ++
                    [{ role := assistantRole, content := r.text,
                       provider_used := some prov }],
                usage_events := st.usage_events ++
                    [{ tenant := tenant, provider := prov,
                       tokens_in := r.tokens_in, tokens_out := r.tokens_out,
                       cost := calculate_cost prov r.tokens_in r.tokens_out }],
                audit := st.audit ++
                    (callWithFallback pol primary fb inp.scriptP inp.scriptF).2 }
            tenant k (renderResponse r prov) inp.now
         | none =>
            { st with
                messages := (st.messages ++
                    [{ role := userRole, content := inp.content,
                       provider_used := none }]) ++
                    [{ role := assistantRole, content := r.text,
                       provider_used := some prov }],
                usage_events := st.usage_events ++
                    [{ tenant := tenant, provider := prov,
                       tokens_in := r.tokens_in, tokens_out := r.tokens_out,
                       cost := calculate_cost prov r.tokens_in r.tokens_out }],
                audit := st.audit ++
                    (callWithFallback pol primary fb inp.scriptP inp.scriptF).2 }),
        ?_, ?_, ?_, ?_⟩
      · simp only [processMessage, commitTxn, List.foldl, applyWrite]
        rw [hc, hf]
        cases key <;> rfl
      · cases key <;> rfl
      · cases key <;>
          · show assistantRows ((st.messages ++ _) ++ _) = _
            rw [assistantRows_append, assistantRows_append, assistantRows_user,
              assistantRows_asst, List.append_nil]
      · cases key <;> rfl

theorem runCalls_all_hits (pol : RetryPolicy) (tenant : String)
    (primary : Provider) (fb : Option Provider) (k : String)
    (rec : IdemRecord) (rest : List IdemRecord) :
    ∀ (inps : List SendInput) (st : GatewayState),
      st.idem = rec :: rest → rec.tenant = tenant → rec.key = k →
      (∀ inp ∈ inps, inp.now < rec.expiresAt) →
      runCalls pol tenant primary fb (some k) inps st
        = (st, inps.map (fun _ => Except.ok rec.response)) := by
  intro inps
  induction inps with
  | nil => intro st _ _ _ _; rfl
  | cons inp rest2 ih =>
    intro st hidem ht hk hin
    have hlook : idemLookup st tenant k inp.now = some rec.response := by
      rw [idemLookup, hidem, idemFind,
        if_pos ⟨ht, hk, hin inp (List.mem_cons_self inp rest2)⟩]
    have h1 := sendMessage_cache_hit pol tenant primary fb k inp st
      rec.response hlook
    simp only [runCalls, h1,
      ih st hidem ht hk (fun x hx => hin x (List.mem_cons_of_mem inp hx)),
      List.map_cons]

theorem runCalls_dedup_aux (pol : RetryPolicy) (tenant k : String)
    (primary : Provider) (fb : Option Provider) :
    ∀ (inps : List SendInput) (st : GatewayState),
      (∀ r ∈ st.idem, ¬(r.tenant = tenant ∧ r.key = k)) →
      (∀ a ∈ inps, ∀ b ∈ inps, a.now < b.now + ttlMs) →
      (runCalls pol tenant primary fb (some k) inps st).1.usage_events.length
          ≤ st.usage_events.length + 1
      ∧ (assistantRows
            (runCalls pol tenant primary fb (some k) inps st).1.messages).length
          ≤ (assistantRows st.messages).length + 1
      ∧ ∀ r1 r2,
          Except.ok r1 ∈ (runCalls pol tenant primary fb (some k) inps st).2 →
          Except.ok r2 ∈ (runCalls pol tenant primary fb (some k) inps st).2 →
          r1 = r2 := by
  intro inps
  induction inps with
  | nil =>
    intro st _ _
    refine ⟨by simp [runCalls], by simp [runCalls], ?_⟩
    intro r1 r2 h1 h2
    simp [runCalls] at h1
  | cons inp rest ih =>
    intro st hclean hwin
    have hlook : idemLookup st tenant k inp.now = none :=
      idemFind_eq_none tenant k inp.now st.idem hclean
    have hsm := sendMessage_cache_miss pol tenant primary fb k inp st hlook
    rcases processMessage_shape pol tenant primary fb (some k) inp st with
      ⟨e, st2, hpm, hidem, husage, hrows⟩ | ⟨r, prov, st2, hpm, husage, hrows, hidem⟩
    · have hrun : runCalls pol tenant primary fb (some k) (inp :: rest) st
          = ((runCalls pol tenant primary fb (some k) rest st2).1,
             Except.error e ::
               (runCalls pol tenant primary fb (some k) rest st2).2) := by
        simp only [runCalls, hsm, hpm]
      obtain ⟨ih1, ih2, ih3⟩ := ih st2
        (by rw [hidem]; exact hclean)
        (fun a ha b hb => hwin a (List.mem_cons_of_mem inp ha) b
          (List.mem_cons_of_mem inp hb))
      rw [husage] at ih1
      rw [hrows] at ih2
      rw [hrun]
      refine ⟨ih1, ih2, ?_⟩
      intro r1 r2 h1 h2
      rcases List.mem_cons.mp h1 with h1 | h1
      · exact Except.noConfusion h1
      rcases List.mem_cons.mp h2 with h2 | h2
      · exact Except.noConfusion h2
      exact ih3 r1 r2 h1 h2
    · have hidem2 : st2.idem = ({ tenant := tenant, key := k,
                                   response := renderResponse r prov,
                                   expiresAt := inp.now + ttlMs } :
          IdemRecord) :: st.idem := hidem
      have hall := runCalls_all_hits pol tenant primary fb k
        { tenant := tenant, key := k, response := renderResponse r prov,
          expiresAt := inp.now + ttlMs }
        st.idem rest st2 hidem2 rfl rfl
        (fun x hx => hwin x (List.mem_cons_of_mem inp hx) inp
          (List.mem_cons_self inp rest))
      have hrun : runCalls pol tenant primary fb (some k) (inp :: rest) st
          = (st2, Except.ok (renderResponse r prov) ::
              rest.map (fun _ => Except.ok (renderResponse r prov))) := by
        simp only [runCalls, hsm, hpm, hall]
      rw [hrun]
      refine ⟨by rw [husage]; simp, by rw [hrows]; simp, ?_⟩
      have hx : ∀ y : String,
          (Except.ok y : Except SendError String) ∈
            (Except.ok (renderResponse r prov) ::
              rest.map (fun _ => Except.ok (renderResponse r prov))) →
          y = renderResponse r prov := by
        intro y hy
        rcases List.mem_cons.mp hy with hy | hy
        · exact (Except.ok.inj hy)
        · obtain ⟨x, -, hxx⟩ := List.mem_map.mp hy
          exact (Except.ok.inj hxx).symm
      intro r1 r2 h1 h2
      rw [hx r1 h1, hx r2 h2]

/-- C1: for every (tenant, idempotency key) pair, over any sequence of
logical sends with that key that all fall inside the TTL window of one
another (so the cached record stays non-expired), at most one UsageEvent
and at most one assistant Message are ever created, and all successful
responses are byte-identical to the first cached response; a send that
hits the cache performs no processing and adds no side effects. -/
theorem idempotency_exactly_once (pol : RetryPolicy) (tenant k : String)
    (primary : Provider) (fb : Option Provider) (inps : List SendInput)
    (st : GatewayState)
    (hclean : ∀ r ∈ st.idem, ¬(r.tenant = tenant ∧ r.key = k))
    (hwin : ∀ a ∈ inps, ∀ b ∈ inps, a.now < b.now + ttlMs) :
    (runCalls pol tenant primary fb (some k) inps st).1.usage_events.length
        ≤ st.usage_events.length + 1
    ∧ (assistantRows
          (runCalls pol tenant primary fb (some k) inps st).1.messages).length
        ≤ (assistantRows st.messages).length + 1
    ∧ (∀ r1 r2,
        Except.ok r1 ∈ (runCalls pol tenant primary fb (some k) inps st).2 →
        Except.ok r2 ∈ (runCalls pol tenant primary fb (some k) inps st).2 →
        r1 = r2)
    ∧ ∀ (inp : SendInput) (cached : String),
        idemLookup st tenant k inp.now = some cached →
        sendMessage pol tenant primary fb (some k) inp st
          = (Except.ok cached, st) := by
  obtain ⟨h1, h2, h3⟩ := runCalls_dedup_aux pol tenant k primary fb inps st
    hclean hwin
  exact ⟨h1, h2, h3, fun inp cached hc =>
    sendMessage_cache_hit pol tenant primary fb k inp st cached hc⟩

theorem idempotency_exactly_once_witness :
    (∀ r ∈ emptyState.idem, ¬(r.tenant = tenantOne ∧ r.key = keyOne))
    ∧ (∀ a ∈ [c9Input, c9Input], ∀ b ∈ [c9Input, c9Input],
        a.now < b.now + ttlMs)
    ∧ ((runCalls defaultPolicy tenantOne Provider.vendorA none (some keyOne)
          [c9Input, c9Input] emptyState).1.usage_events.length
        ≤ emptyState.usage_events.length + 1
      ∧ (assistantRows (runCalls defaultPolicy tenantOne Provider.vendorA none
            (some keyOne) [c9Input, c9Input] emptyState).1.messages).length
          ≤ (assistantRows emptyState.messages).length + 1
      ∧ (∀ r1 r2,
          Except.ok r1 ∈ (runCalls defaultPolicy tenantOne Provider.vendorA
            none (some keyOne) [c9Input, c9Input] emptyState).2 →
          Except.ok r2 ∈ (runCalls defaultPolicy tenantOne Provider.vendorA
            none (some keyOne) [c9Input, c9Input] emptyState).2 →
          r1 = r2)
      ∧ ∀ (inp : SendInput) (cached : String),
          idemLookup emptyState tenantOne keyOne inp.now = some cached →
          sendMessage defaultPolicy tenantOne Provider.vendorA none
            (some keyOne) inp emptyState = (Except.ok cached, emptyState)) :=
  ⟨by decide, by decide,
   idempotency_exactly_once defaultPolicy tenantOne keyOne Provider.vendorA
     none [c9Input, c9Input] emptyState (by decide) (by decide)⟩

theorem processMessage_all_or_nothing (pol : RetryPolicy) (tenant : String)
    (primary : Provider) (fb : Option Provider) (key : Option String)
    (inp : SendInput) (st : GatewayState) :
    ((∃ m, assistantRows
          (processMessage pol tenant primary fb key inp st).2.messages
        = assistantRows st.messages ++ [m]
      ∧ ∃ u, (processMessage pol tenant primary fb key inp st).2.usage_events
          = st.usage_events ++ [u])
     ∨ (assistantRows (processMessage pol tenant primary fb key inp st).2.messages
          = assistantRows st.messages
        ∧ (processMessage pol tenant primary fb key inp st).2.usage_events
          = st.usage_events))
    ∧ ∀ e, (processMessage pol tenant primary fb key inp st).1 = Except.error e →
        assistantRows (processMessage pol tenant primary fb key inp st).2.messages
          = assistantRows st.messages
        ∧ (processMessage pol tenant primary fb key inp st).2.usage_events
          = st.usage_events := by
  rcases processMessage_shape pol tenant primary fb key inp st with
    ⟨e, st2, hpm, -, husage, hrows⟩ | ⟨r, prov, st2, hpm, husage, hrows, -⟩
  · rw [hpm]
    exact ⟨Or.inr ⟨hrows, husage⟩, fun e2 _ => ⟨hrows, husage⟩⟩
  · rw [hpm]
    exact ⟨Or.inl ⟨_, hrows, _, husage⟩, fun e2 he => Except.noConfusion he⟩

/-- C7: every logical send that reaches the terminal Failed state leaves
nothing partially persisted, and in every execution the commit boundary
around persistence is all-or-nothing: either both the assistant Message
and its UsageEvent are durably written, or neither is, including
executions interrupted by a fault injected between the Message insert
and the UsageEvent insert. -/
theorem persist_all_or_nothing (pol : RetryPolicy) (tenant : String)
    (primary : Provider) (fb : Option Provider) (key : Option String)
    (inp : SendInput) (st : GatewayState) :
    ((∃ m, assistantRows
          (sendMessage pol tenant primary fb key inp st).2.messages
        = assistantRows st.messages ++ [m]
      ∧ ∃ u, (sendMessage pol tenant primary fb key inp st).2.usage_events
          = st.usage_events ++ [u])
     ∨ (assistantRows (sendMessage pol tenant primary fb key inp st).2.messages
          = assistantRows st.messages
        ∧ (sendMessage pol tenant primary fb key inp st).2.usage_events
          = st.usage_events))
    ∧ ∀ e, (sendMessage pol tenant primary fb key inp st).1 = Except.error e →
        assistantRows (sendMessage pol tenant primary fb key inp st).2.messages
          = assistantRows st.messages
        ∧ (sendMessage pol tenant primary fb key inp st).2.usage_events
          = st.usage_events := by
  cases key with
  | none =>
    have heq : sendMessage pol tenant primary fb none inp st
        = processMessage pol tenant primary fb none inp st := rfl
    rw [heq]
    exact processMessage_all_or_nothing pol tenant primary fb none inp st
  | some k =>
    cases hl : idemLookup st tenant k inp.now with
    | some cached =>
      have heq := sendMessage_cache_hit pol tenant primary fb k inp st
        cached hl
      rw [heq]
      exact ⟨Or.inr ⟨rfl, rfl⟩, fun e he => Except.noConfusion he⟩
    | none =>
      have heq := sendMessage_cache_miss pol tenant primary fb k inp st hl
      rw [heq]
      exact processMessage_all_or_nothing pol tenant primary fb (some k) inp st

theorem persist_all_or_nothing_witness :
    ((∃ m, assistantRows
          (sendMessage defaultPolicy tenantOne Provider.vendorA none none
            { content := sampleContent, now := 0,
              fault := some PersistFault.betweenInserts,
              scriptP := scriptAlwaysOkA,
              scriptF := scriptAlwaysOkB } emptyState).2.messages
        = assistantRows emptyState.messages ++ [m]
      ∧ ∃ u, (sendMessage defaultPolicy tenantOne Provider.vendorA none none
            { content := sampleContent, now := 0,
              fault := some PersistFault.betweenInserts,
              scriptP := scriptAlwaysOkA,
              scriptF := scriptAlwaysOkB } emptyState).2.usage_events
          = emptyState.usage_events ++ [u])
     ∨ (assistantRows (sendMessage defaultPolicy tenantOne Provider.vendorA
            none none
            { content := sampleContent, now := 0,
              fault := some PersistFault.betweenInserts,
              scriptP := scriptAlwaysOkA,
              scriptF := scriptAlwaysOkB } emptyState).2.messages
          = assistantRows emptyState.messages
        ∧ (sendMessage defaultPolicy tenantOne Provider.vendorA none none
            { content := sampleContent, now := 0,
              fault := some PersistFault.betweenInserts,
              scriptP := scriptAlwaysOkA,
              scriptF := scriptAlwaysOkB } emptyState).2.usage_events
          = emptyState.usage_events))
    ∧ ∀ e, (sendMessage defaultPolicy tenantOne Provider.vendorA none none
            { content := sampleContent, now := 0,
              fault := some PersistFault.betweenInserts,
              scriptP := scriptAlwaysOkA,
              scriptF := scriptAlwaysOkB } emptyState).1 = Except.error e →
        assistantRows (sendMessage defaultPolicy tenantOne Provider.vendorA
            none none
            { content := sampleContent, now := 0,
              fault := some PersistFault.betweenInserts,
              scriptP := scriptAlwaysOkA,
              scriptF := scriptAlwaysOkB } emptyState).2.messages
          = assistantRows emptyState.messages
        ∧ (sendMessage defaultPolicy tenantOne Provider.vendorA none none
            { content := sampleContent, now := 0,
              fault := some PersistFault.betweenInserts,
              scriptP := scriptAlwaysOkA,
              scriptF := scriptAlwaysOkB } emptyState).2.usage_events
          = emptyState.usage_events :=
  persist_all_or_nothing defaultPolicy tenantOne Provider.vendorA none none
    { content := sampleContent, now := 0,
      fault := some PersistFault.betweenInserts,
      scriptP := scriptAlwaysOkA, scriptF := scriptAlwaysOkB } emptyState

/-- C8: the tenant scoping claim fails on the declared database schema.
The idempotency_keys table makes the key column alone the PRIMARY KEY,
so after tenant one stores a record under a key string, a distinct
tenant storing under the identical key string hits a primary key
violation instead of creating a distinct per-tenant cache entry; the
prior record is not overwritten and a tenant-filtered lookup does not
see the other tenant, but the two distinct entries the claim (and the
surrounding documentation, which asserts tenant scoping and scopes its
Redis variant correctly) requires cannot both exist. -/
theorem idempotency_schema_not_tenant_scoped :
    idemRow1.tenant_id ≠ idemRow2.tenant_id
    ∧ idemRow1.key = idemRow2.key
    ∧ dbInsertIdempotencyKey [] idemRow1 = Except.ok [idemRow1]
    ∧ dbInsertIdempotencyKey [idemRow1] idemRow2 = Except.error pkViolationMsg
    ∧ dbLookupIdempotencyKey [idemRow1] tenantTwo keyOne = none := by
  refine ⟨by decide, rfl, by decide, by decide, by decide⟩

/-- C9: every dashboard chat send supplies an idempotency key of the
form msg- followed by the current millisecond timestamp, and the key is
never absent (the header is attached since the key is truthy), so
idempotency is never disabled for dashboard sends; two dashboard sends
issued in the same millisecond carry the same generated key, and the
concrete same-millisecond double send is deduplicated as one logical
request: one usage event and two byte-identical responses. -/
theorem dashboard_key_always_present (sid content : String) (ms : ℕ) :
    (sessionsSendMessage sid content
        (some (dashboardIdempotencyKey ms))).idempotencyHeader
      = some (msgKeyMarker ++ toString ms)
    ∧ strStartsWith (dashboardIdempotencyKey ms) msgKeyMarker = true
    ∧ c9Scenario := by
  have hne : (msgKeyMarker ++ toString ms).isEmpty ≠ true := by
    intro hem
    have h2 : msgKeyMarker ++ toString ms = "" :=
      (String.isEmpty_iff _).mp hem
    have h3 : (msgKeyMarker ++ toString ms).data = [] := by
      rw [h2]
    rw [String.data_append] at h3
    rcases List.append_eq_nil.mp h3 with ⟨h4, -⟩
    exact absurd h4 (by decide)
  refine ⟨?_, ?_, ?_⟩
  · simp only [sessionsSendMessage, dashboardIdempotencyKey]
    rw [if_neg hne]
  · simp [strStartsWith, dashboardIdempotencyKey, String.data_append]
  · exact ⟨by decide, by decide⟩

/-- C10: a dashboard send first appends an optimistic user message whose
id starts with temp-, and when the send fails every message whose id
starts with temp- is removed, so for any pre-send list without
temporary entries the list after the error equals the list exactly as
it was before the send (error atomicity of the chat state). -/
theorem chat_error_restores_list (msgs : List ChatMessage) (content : String)
    (ms : ℕ) (hclean : ∀ m ∈ msgs, strStartsWith m.id tempIdMarker = false) :
    (∃ tmp, chatOnMutate msgs content ms = msgs ++ [tmp]
      ∧ strStartsWith tmp.id tempIdMarker = true)
    ∧ chatOnError (chatOnMutate msgs content ms) = msgs := by
  constructor
  · refine ⟨{ id := tempIdMarker ++ toString ms, role := userRole,
              content := content }, rfl, ?_⟩
    simp [strStartsWith, String.data_append]
  · simp only [chatOnError, chatOnMutate, List.filter_append]
    have h1 : msgs.filter (fun m => !(strStartsWith m.id tempIdMarker))
        = msgs :=
      List.filter_eq_self.mpr (fun m hm => by rw [hclean m hm]; rfl)
    have h2 : ([{ id := tempIdMarker ++ toString ms, role := userRole,
                  content := content }] : List ChatMessage).filter
        (fun m => !(strStartsWith m.id tempIdMarker)) = [] := by
      simp [strStartsWith, String.data_append]
    rw [h1, h2, List.append_nil]

theorem chat_error_restores_list_witness :
    (∀ m ∈ sampleChatList, strStartsWith m.id tempIdMarker = false)
    ∧ (∃ tmp, chatOnMutate sampleChatList sampleContent 8
          = sampleChatList ++ [tmp]
      ∧ strStartsWith tmp.id tempIdMarker = true)
    ∧ chatOnError (chatOnMutate sampleChatList sampleContent 8)
        = sampleChatList :=
  ⟨by decide,
   (chat_error_restores_list sampleChatList sampleContent 8 (by decide)).1,
   (chat_error_restores_list sampleChatList sampleContent 8 (by decide)).2⟩

end StitchFin
